import Mathlib

/-!
Verification of the WorkoutBuddy training-ledger application.

The development shallowly embeds the TypeScript source of the repository:
the per-day ledger app (types `SetEntry`, `ExerciseLog`, the exercise
catalog, localStorage persistence with v1 to v2 migration, the date-aware
previous-session lookup, the save and debounced auto-save paths, the rest
override editor, and the Supabase startup pull) lives in namespace
`Ledger`; the session-scoped advisor app (the Epley estimated-max formula,
the RIR suggestion heuristic and the prescription-string parser) lives in
namespace `Advisor`.

JavaScript numbers are modelled as rationals (`ℚ`); the non-finite values
(NaN from an empty input box) do not occur in any property below, which
all quantify over numeric states.  JavaScript string comparison
(code-unit lexicographic) is modelled by `strLtAux` on character lists.
-/

/-- JavaScript string comparison, one character pair at a time:
`a < b` on code units, shorter string first on a tie. -/
def strLtAux : List Char → List Char → Bool
  | [], [] => false
  | [], _ :: _ => true
  | _ :: _, [] => false
  | a :: as, b :: bs =>
    if a.toNat < b.toNat then true
    else if b.toNat < a.toNat then false
    else strLtAux as bs

/-- The JavaScript comparison `a < b` on strings. -/
def strLt (a b : String) : Bool := strLtAux a.data b.data

/-- The JavaScript comparison `a <= b` on strings, which is `!(b < a)`. -/
def strLe (a b : String) : Bool := !(strLt b a)

/-- JavaScript `Math.round`: half-up rounding, `Math.round x = ⌊x + 0.5⌋`. -/
def jsRound (q : ℚ) : ℤ := ⌊q + 1/2⌋

/-- JavaScript `Number(x) || 0` applied to a JSON field: a present numeric
value is kept, an absent or non-numeric one becomes `0` (and `0 || 0 = 0`,
so mapping `none` as well as `some 0` to `0` is exact). -/
def jsNumOr0 : Option ℚ → ℚ
  | none => 0
  | some v => v

namespace Ledger

/-- `SetEntry` of the per-day tracker (`type SetEntry = { reps; weight }`). -/
structure SetEntry where
  reps : ℚ
  weight : ℚ
deriving DecidableEq

/-- `Exercise` of the per-day tracker; `day` and `type` are the string
unions of the source. -/
structure Exercise where
  id : String
  name : String
  day : String
  type : String
  defaultRestSec : ℚ
  trackWeight : Bool
deriving DecidableEq

/-- `ExerciseLog`: the date-snapshot record, keyed by `(date, exerciseId)`.
`notes` is the optional field of the source type; no code path sets it. -/
structure ExerciseLog where
  date : String
  day : String
  exerciseId : String
  exerciseName : String
  sets : List SetEntry
  notes : Option String := none
deriving DecidableEq

/-- The fixed exercise catalog `EXERCISES` of the per-day tracker. -/
def EXERCISES : List Exercise := [
  { id := "front-squat", name := "Front Squat", day := "Legs Anterior", type := "primary", defaultRestSec := 120, trackWeight := true },
  { id := "standing-calf-raise", name := "Standing Calf Raise", day := "Legs Anterior", type := "accessory", defaultRestSec := 75, trackWeight := true },
  { id := "bulgarian-split-squat", name := "Bulgarian Split Squat", day := "Legs Anterior", type := "secondary", defaultRestSec := 90, trackWeight := true },
  { id := "banded-lateral-walk", name := "Banded Lateral Walk", day := "Legs Anterior", type := "accessory", defaultRestSec := 45, trackWeight := false },
  { id := "neck-flexion", name := "Neck Flexion (harness/band)", day := "Push", type := "primary", defaultRestSec := 60, trackWeight := true },
  { id := "neck-extension", name := "Neck Extension (harness)", day := "Push", type := "primary", defaultRestSec := 60, trackWeight := true },
  { id := "wrist-curl", name := "Wrist Curl", day := "Push", type := "secondary", defaultRestSec := 60, trackWeight := true },
  { id := "wrist-extension-curl", name := "Wrist Extension Curl", day := "Push", type := "secondary", defaultRestSec := 60, trackWeight := true },
  { id := "incline-db-press", name := "Incline Dumbbell Press (maintenance)", day := "Push", type := "accessory", defaultRestSec := 75, trackWeight := true },
  { id := "db-lateral-raise", name := "Dumbbell Lateral Raise", day := "Push", type := "accessory", defaultRestSec := 60, trackWeight := true },
  { id := "neck-lat-flexion", name := "Neck Lateral Flexion (harness/band)", day := "Pull", type := "primary", defaultRestSec := 60, trackWeight := true },
  { id := "neck-rotation-iso", name := "Neck Rotation (isometric towel/band)", day := "Pull", type := "primary", defaultRestSec := 45, trackWeight := false },
  { id := "reverse-curl", name := "Reverse Curl (EZ/DB)", day := "Pull", type := "secondary", defaultRestSec := 60, trackWeight := true },
  { id := "hammer-curl", name := "Hammer Curl", day := "Pull", type := "secondary", defaultRestSec := 60, trackWeight := true },
  { id := "chest-supported-row", name := "Chest-Supported Row (maintenance)", day := "Pull", type := "accessory", defaultRestSec := 75, trackWeight := true },
  { id := "pull-up", name := "Pull-Up (bodyweight/weighted)", day := "Pull", type := "accessory", defaultRestSec := 90, trackWeight := true },
  { id := "trapbar-deadlift", name := "Trap-Bar Deadlift", day := "Legs Posterior", type := "primary", defaultRestSec := 150, trackWeight := true },
  { id := "romanian-deadlift", name := "Romanian Deadlift", day := "Legs Posterior", type := "secondary", defaultRestSec := 120, trackWeight := true },
  { id := "seated-calf-raise", name := "Seated Calf Raise", day := "Legs Posterior", type := "accessory", defaultRestSec := 75, trackWeight := true },
  { id := "dead-bug", name := "Dead Bug", day := "Legs Posterior", type := "accessory", defaultRestSec := 45, trackWeight := false },
  { id := "cossack-squat", name := "Cossack Squat (bodyweight)", day := "Mobility", type := "mobility", defaultRestSec := 40, trackWeight := false },
  { id := "hip-9090", name := "90/90 Hip Switch", day := "Mobility", type := "mobility", defaultRestSec := 40, trackWeight := false },
  { id := "ankle-ktw", name := "Ankle Knee-to-Wall", day := "Mobility", type := "mobility", defaultRestSec := 40, trackWeight := false },
  { id := "scap-retractions", name := "Hanging Scapular Retractions", day := "Mobility", type := "mobility", defaultRestSec := 45, trackWeight := false }
]

/-- The catalog entry for the front squat, used as a concrete input. -/
def frontSquat : Exercise :=
  { id := "front-squat", name := "Front Squat", day := "Legs Anterior", type := "primary", defaultRestSec := 120, trackWeight := true }

/-- The catalog entry for the dead bug (`trackWeight := false`), used as a
concrete input. -/
def deadBug : Exercise :=
  { id := "dead-bug", name := "Dead Bug", day := "Legs Posterior", type := "accessory", defaultRestSec := 45, trackWeight := false }

/-- A record of the legacy `wb_logs_v1` blob: one weight per exercise log.
The stored JSON weight field may be absent or non-numeric, hence `Option`. -/
structure LegacyLog where
  date : String
  day : String
  exerciseId : String
  exerciseName : String
  weight : Option ℚ
deriving DecidableEq

/-- The local persisted state relevant to `loadLogs`: the parsed contents
of the `wb_logs_v2` and `wb_logs_v1` keys (`none` models an absent key;
a malformed blob makes `loadLogs` return `[]` without writing, a path the
claims do not touch and outside the states modelled here). -/
structure LocalStore where
  logsV2 : Option (List ExerciseLog)
  logsV1 : Option (List LegacyLog)
deriving DecidableEq

/-- The v1-to-v2 migration of one legacy log performed inside `loadLogs`:
a single set with `reps = 0` and `weight = Number(l.weight) || 0`. -/
def migrateV1 (l : LegacyLog) : ExerciseLog :=
  { date := l.date, day := l.day, exerciseId := l.exerciseId,
    exerciseName := l.exerciseName,
    sets := [{ reps := 0, weight := jsNumOr0 l.weight }] }

/-- `loadLogs` of the per-day tracker: prefer the v2 blob; otherwise
migrate the v1 blob and persist the result under the v2 key (the v1 key
is not written); otherwise return the empty ledger.  The returned pair is
(result, localStorage afterwards). -/
def loadLogs (st : LocalStore) : List ExerciseLog × LocalStore :=
  match st.logsV2 with
  | some v2 => (v2, st)
  | none =>
    match st.logsV1 with
    | some old =>
      let migrated := old.map migrateV1
      (migrated, { st with logsV2 := some migrated })
    | none => ([], st)

/-- `loadRestOverrides`: the parsed `wb_rest_overrides_v1` mapping is
returned verbatim (no clamping); an absent or malformed blob gives the
empty mapping. -/
def loadRestOverrides (stored : Option (List (String × ℚ))) : List (String × ℚ) :=
  match stored with
  | some m => m
  | none => []

/-- One step of the source comparator `(a, b) => a.date < b.date ? 1 : -1`:
`a` is placed before `b` exactly when the comparator does not order `a`
after `b`, i.e. when `!(a.date < b.date)`, i.e. `strLe b.date a.date`. -/
def insertDesc (x : ExerciseLog) : List ExerciseLog → List ExerciseLog
  | [] => [x]
  | y :: ys => if strLe y.date x.date then x :: y :: ys else y :: insertDesc x ys

/-- The `.sort(comparator)` call of `getLastLogForExercise`, modelled as an
insertion sort for the total preorder induced by the comparator (the
comparator never returns 0, so it orders `a` before `b` iff
`!(a.date < b.date)`). -/
def sortDesc (l : List ExerciseLog) : List ExerciseLog := l.foldr insertDesc []

/-- The filter predicate of `getLastLogForExercise`:
`l.exerciseId === exerciseId && (!beforeDate || l.date <= beforeDate)`. -/
def lookupPred (exerciseId : String) (beforeDate : Option String) (l : ExerciseLog) : Bool :=
  l.exerciseId == exerciseId &&
    (match beforeDate with
     | none => true
     | some d => strLe l.date d)

/-- `getLastLogForExercise`: filter to the exercise (and optional cutoff),
sort by date descending, take the first element. -/
def getLastLogForExercise (exerciseId : String) (logs : List ExerciseLog)
    (beforeDate : Option String) : Option ExerciseLog :=
  (sortDesc (logs.filter (lookupPred exerciseId beforeDate))).head?

/-- The pair predicate `l.date === dateStr && l.exerciseId === exId`. -/
def pairPred (dateStr exId : String) (l : ExerciseLog) : Bool :=
  l.date == dateStr && l.exerciseId == exId

/-- `logs.filter((l) => !(l.date === dateStr && l.exerciseId === ex.id))`,
the replacement filter shared by `saveToday` and the auto-save. -/
def removePair (logs : List ExerciseLog) (dateStr exId : String) : List ExerciseLog :=
  logs.filter (fun l => !(pairPred dateStr exId l))

/-- The validation of `saveToday`:
`sets.length > 0 && sets.every((s) => s.reps > 0 && s.weight >= 0)`. -/
def validSets (sets : List SetEntry) : Bool :=
  decide (sets.length > 0) && sets.all (fun s => decide (s.reps > 0) && decide (s.weight ≥ 0))

/-- The set list written into a committed log:
`sets.map((s) => ({ reps: s.reps, weight: ex.trackWeight ? s.weight : 0 }))`. -/
def commitSets (ex : Exercise) (sets : List SetEntry) : List SetEntry :=
  sets.map (fun s => { reps := s.reps, weight := if ex.trackWeight then s.weight else 0 })

/-- The alert text of a failed `saveToday` validation. -/
def invalidMsg : String := "Please enter reps (>0) and non-negative weight for all sets."

/-- The outcome of one `saveToday` attempt: the ledger afterwards and the
alert raised on rejection (if any). -/
structure SaveOutcome where
  logs : List ExerciseLog
  alertMsg : Option String
deriving DecidableEq

/-- `saveToday`: validate, and on success replace the `(date, exerciseId)`
entry with a freshly built log appended after the surviving entries. -/
def saveToday (logs : List ExerciseLog) (dateStr : String) (ex : Exercise)
    (sets : List SetEntry) : SaveOutcome :=
  if validSets sets then
    { logs := removePair logs dateStr ex.id ++
        [{ date := dateStr, day := ex.day, exerciseId := ex.id,
           exerciseName := ex.name, sets := commitSets ex sets }],
      alertMsg := none }
  else
    { logs := logs, alertMsg := some invalidMsg }

/-- `roundToStep` of the auto-save effect:
`Math.round(value / step) * step`. -/
def roundToStep (value step : ℚ) : ℚ := (jsRound (value / step) : ℚ) * step

/-- The auto-save sanitizer:
`reps: Math.max(0, Math.round(reps)), weight: Math.max(0, roundToStep(weight, 0.5))`
(`Number.isFinite` guards replace NaN by 0; on the rational model every
value is finite, so they are the identity). -/
def sanitizeSet (s : SetEntry) : SetEntry :=
  { reps := max 0 (jsRound s.reps : ℚ), weight := max 0 (roundToStep s.weight (1/2)) }

/-- The body of the debounced auto-save timeout: bail out only when the
set list is empty, otherwise sanitize and commit a replacement log for
`(dateStr, ex.id)` exactly as `saveToday` does. -/
def autoSaveCommit (logs : List ExerciseLog) (dateStr : String) (ex : Exercise)
    (sets : List SetEntry) : List ExerciseLog :=
  if sets.length = 0 then logs
  else
    removePair logs dateStr ex.id ++
      [{ date := dateStr, day := ex.day, exerciseId := ex.id,
         exerciseName := ex.name, sets := commitSets ex (sets.map sanitizeSet) }]

/-- JavaScript object update `{ ...m, [k]: v }` on a string-keyed record
modelled as a key-ordered association list: an existing key keeps its
position and gets the new value, a fresh key is appended. -/
def recordSet (m : List (String × ℚ)) (k : String) (v : ℚ) : List (String × ℚ) :=
  if m.any (fun p => p.1 == k) then
    m.map (fun p => if p.1 == k then (k, v) else p)
  else m ++ [(k, v)]

/-- `updateRest`: write the clamped value
`Math.max(10, Math.min(999, Math.round(sec)))` for the exercise key. -/
def updateRest (overrides : List (String × ℚ)) (exId : String) (sec : ℚ) :
    List (String × ℚ) :=
  recordSet overrides exId (max 10 (min 999 (jsRound sec : ℚ)))

/-- One raw set object of a remote `wb_logs.sets` column;
`none` fields model absent or non-numeric JSON values. -/
structure RemoteSetRow where
  reps : Option ℚ
  weight : Option ℚ
deriving DecidableEq

/-- One row of the remote `wb_logs` table as selected by the pull. -/
structure RemoteLogRow where
  date : String
  day : String
  exercise_id : String
  exercise_name : String
  sets : Option (List RemoteSetRow)
deriving DecidableEq

/-- One row of the remote `wb_rest_overrides` table as selected by the pull. -/
structure RemoteRestRow where
  exercise_id : String
  seconds : Option ℚ
deriving DecidableEq

/-- The row mapping of the pull:
`sets: (r.sets ?? []).map((s) => ({ reps: Number(s.reps)||0, weight: Number(s.weight)||0 }))`. -/
def rowToLog (r : RemoteLogRow) : ExerciseLog :=
  { date := r.date, day := r.day, exerciseId := r.exercise_id,
    exerciseName := r.exercise_name,
    sets := (match r.sets with | none => [] | some ss => ss).map
      (fun (s : RemoteSetRow) => { reps := jsNumOr0 s.reps, weight := jsNumOr0 s.weight }) }

/-- The `remoteRest` record built by the pull:
`(restRows ?? []).forEach((r) => { remoteRest[r.exercise_id] = Number(r.seconds)||0 })`. -/
def buildRemoteRest (rows : List RemoteRestRow) : List (String × ℚ) :=
  rows.foldl (fun m r => recordSet m r.exercise_id (jsNumOr0 r.seconds)) []

/-- The mutable application state touched by the sync engine: the React
`logs` and `restOverrides` signals, their localStorage mirrors, and the
sync status signals. -/
structure AppState where
  logs : List ExerciseLog
  storedLogs : List ExerciseLog
  restOverrides : List (String × ℚ)
  storedRest : List (String × ℚ)
  syncing : Bool
  syncError : String
deriving DecidableEq

/-- `pullFromSupabase` with a configured remote, from the point the two
selects complete (or either fails): clear the error, on failure record the
message only, on success replace the ledger exactly when at least one log
row came back and (independently) replace the overrides exactly when the
remote rest record is non-empty, mirroring each replacement to
localStorage.  The result of the two selects is the `Except` argument;
both selects run before any state is touched, so one failure value covers
either failing. -/
def applyPull (st : AppState)
    (result : Except String (List RemoteLogRow × List RemoteRestRow)) : AppState :=
  let st0 := { st with syncing := true, syncError := "" }
  match result with
  | Except.error msg => { st0 with syncError := msg, syncing := false }
  | Except.ok (logsRows, restRows) =>
    let remoteLogs := logsRows.map rowToLog
    let remoteRest := buildRemoteRest restRows
    let st1 := if remoteLogs.length ≠ 0 then
        { st0 with logs := remoteLogs, storedLogs := remoteLogs } else st0
    let st2 := if remoteRest.length ≠ 0 then
        { st1 with restOverrides := remoteRest, storedRest := remoteRest } else st1
    { st2 with syncing := false }

/-- Number of ledger entries stored for a `(date, exerciseId)` pair. -/
def pairCount (logs : List ExerciseLog) (d e : String) : ℕ :=
  (logs.filter (pairPred d e)).length

/-- Concrete front-squat log dated 2024-01-01 (spec example input). -/
def logJan01 : ExerciseLog :=
  { date := "2024-01-01", day := "Legs Anterior", exerciseId := "front-squat",
    exerciseName := "Front Squat", sets := [{ reps := 5, weight := 60 }] }

/-- Concrete front-squat log dated 2024-01-08 (spec example input). -/
def logJan08 : ExerciseLog :=
  { date := "2024-01-08", day := "Legs Anterior", exerciseId := "front-squat",
    exerciseName := "Front Squat", sets := [{ reps := 5, weight := 62 }] }

/-- Concrete front-squat log dated 2024-01-15 (spec example input). -/
def logJan15 : ExerciseLog :=
  { date := "2024-01-15", day := "Legs Anterior", exerciseId := "front-squat",
    exerciseName := "Front Squat", sets := [{ reps := 5, weight := 65 }] }

/-- A concrete app state whose rest overrides all lie in `[10, 999]`. -/
def stInRange : AppState :=
  { logs := [], storedLogs := [], restOverrides := [("front-squat", 60)],
    storedRest := [("front-squat", 60)], syncing := false, syncError := "" }

end Ledger

namespace Advisor

/-- `Exercise` of the session-scoped advisor app. -/
structure Exercise where
  id : String
  name : String
  group : String
  isBodyweight : Bool := false
  defaultIncrement : ℚ
  loadFactor : Option ℚ := none
deriving DecidableEq

/-- `SetEntry` of the session-scoped advisor app; `rir` is the ordinal
proximity-to-failure (source type `RIR = 0 | 1 | 2 | 3 | 4`, consumed by
numeric comparison only, so modelled as `ℕ`). -/
structure SetEntry where
  id : String
  sessionId : String
  exerciseId : String
  weight : ℚ
  reps : ℚ
  rir : ℕ
  isWarmup : Bool := false
  timestamp : ℤ := 0
deriving DecidableEq

/-- The record returned by `suggestNext`. -/
structure Suggestion where
  advice : String
  nextWeight : Option ℚ
  nextReps : ℚ
deriving DecidableEq

/-- `const DEFAULT_INCREMENT = 2.5`. -/
def DEFAULT_INCREMENT : ℚ := 5/2

/-- JavaScript `a || b` on two (finite) numbers: `b` exactly when `a = 0`. -/
def jsOr (a b : ℚ) : ℚ := if a = 0 then b else a

/-- `epleyE1RM(loadKg, reps)`: `loadKg` when `reps <= 1`, else
`loadKg * (1 + reps / 30)`. -/
def epleyE1RM (loadKg reps : ℚ) : ℚ :=
  if reps ≤ 1 then loadKg else loadKg * (1 + reps / 30)

/-- `suggestNext(ex, lastSets)`: empty history gives the conservative
start; otherwise only `lastSets[lastSets.length - 1]` is read, with the
RIR >= 3, RIR <= 1 and RIR == 2 branches of the source (the last two
numerically identical).  The advisory strings are those of the source;
the numeric interpolation of the increment uses the rational `toString`. -/
def suggestNext (ex : Exercise) (lastSets : List SetEntry) : Suggestion :=
  match lastSets.getLast? with
  | none =>
    { advice := "Start conservative: pick a load you can do ~8 reps with RIR 2.",
      nextWeight := none, nextReps := 8 }
  | some recent =>
    if recent.rir ≥ 3 then
      let inc := jsOr ex.defaultIncrement DEFAULT_INCREMENT
      { advice := "Looked easy (RIR " ++ toString recent.rir ++ "). Add +" ++
          toString inc ++ " kg or +2 reps.",
        nextWeight := some (recent.weight + inc), nextReps := recent.reps }
    else if recent.rir ≤ 1 then
      { advice := "Near limit (RIR " ++ toString recent.rir ++
          "). Hold weight, add +1 rep across sets.",
        nextWeight := some recent.weight, nextReps := recent.reps + 1 }
    else
      { advice := "Solid set. Keep weight, match reps or add +1 if form was clean.",
        nextWeight := some recent.weight, nextReps := recent.reps + 1 }

/-- JavaScript `\s` (the whitespace characters that occur in prescriptions). -/
def jsIsSpace (c : Char) : Bool :=
  c == (' ') || c == ('\t') || c == ('\n') || c == ('\r')

/-- The numeric value of a captured digit run, as `Number` reads it. -/
def digitsVal (ds : List Char) : ℕ :=
  ds.foldl (fun n c => 10 * n + (c.toNat - (48 : ℕ))) 0

/-- First match of `/(\d+)\s*[x×]/i`: scan start positions left to right;
at a digit take the maximal digit run (shorter backtracks cannot succeed,
the next character being a digit), skip whitespace, and require `x`, `X`
or `×`.  Returns the captured digit run. -/
def scanSetCount : List Char → Option (List Char)
  | [] => none
  | c :: cs =>
    if c.isDigit then
      let digits := (c :: cs).takeWhile Char.isDigit
      let rest := ((c :: cs).dropWhile Char.isDigit).dropWhile jsIsSpace
      match rest with
      | x :: _ =>
        if x == ('x') || x == ('X') || x == ('×') then some digits else scanSetCount cs
      | [] => scanSetCount cs
    else scanSetCount cs

/-- First match of `/(\d+)\s*[–-]\s*(\d+)/`: digit run, optional spaces,
an en or ASCII dash, optional spaces, digit run.  Returns both captures. -/
def scanRepRange : List Char → Option (List Char × List Char)
  | [] => none
  | c :: cs =>
    if c.isDigit then
      let d1 := (c :: cs).takeWhile Char.isDigit
      let r1 := ((c :: cs).dropWhile Char.isDigit).dropWhile jsIsSpace
      match r1 with
      | x :: xs =>
        if x == ('–') || x == ('-') then
          let d2 := (xs.dropWhile jsIsSpace).takeWhile Char.isDigit
          if d2.isEmpty then scanRepRange cs else some (d1, d2)
        else scanRepRange cs
      | [] => scanRepRange cs
    else scanRepRange cs

/-- Does the list start with `rep` case-insensitively (the `s` of `reps?`
is optional and consumes nothing the pattern later needs)? -/
def startsWithRep : List Char → Bool
  | r :: e :: p :: _ =>
    (r == ('r') || r == ('R')) && (e == ('e') || e == ('E')) && (p == ('p') || p == ('P'))
  | _ => false

/-- First match of `/(\d+)\s*(?:reps?|$)/i`: digit run, optional spaces,
then either `rep`/`reps` (case-insensitive) or the end of the string.
Returns the captured digit run. -/
def scanSingleRep : List Char → Option (List Char)
  | [] => none
  | c :: cs =>
    if c.isDigit then
      let d := (c :: cs).takeWhile Char.isDigit
      let r := ((c :: cs).dropWhile Char.isDigit).dropWhile jsIsSpace
      if startsWithRep r || r.isEmpty then some d else scanSingleRep cs
    else scanSingleRep cs

/-- If the list starts with `RIR` case-insensitively, return the remainder. -/
def afterRIR : List Char → Option (List Char)
  | a :: b :: c :: rest =>
    if (a == ('r') || a == ('R')) && (b == ('i') || b == ('I')) &&
       (c == ('r') || c == ('R')) then some rest else none
  | _ => none

/-- First match of `/RIR\s*(\d(?:[–-]\d)?)/i`: `RIR`, optional spaces, one
digit, optionally followed by a dash and a second digit (captured greedily
when present).  Returns the captured characters. -/
def scanRIR : List Char → Option (List Char)
  | [] => none
  | ch :: cs =>
    match afterRIR (ch :: cs) with
    | some rest =>
      match rest.dropWhile jsIsSpace with
      | d :: rs =>
        if d.isDigit then
          match rs with
          | m :: d2 :: _ =>
            if (m == ('–') || m == ('-')) && d2.isDigit then some [d, m, d2] else some [d]
          | _ => some [d]
        else scanRIR cs
      | [] => scanRIR cs
    | none => scanRIR cs

/-- The record returned by `parseScheme`. -/
structure SchemeResult where
  sets : Option ℕ
  repText : String
  rirText : Option String
deriving DecidableEq

/-- `parseScheme(s)`: set count from the first `\d+ [x×]` match, rep text
from the rep-range match, else the single-rep match, else `AMRAP`, and the
optional RIR annotation. -/
def parseScheme (s : String) : SchemeResult :=
  let cs := s.data
  { sets := (scanSetCount cs).map digitsVal,
    repText :=
      match scanRepRange cs with
      | some (d1, d2) => String.mk d1 ++ "–" ++ String.mk d2 ++ " reps"
      | none =>
        match scanSingleRep cs with
        | some d => String.mk d ++ " reps"
        | none => "AMRAP",
    rirText := (scanRIR cs).map (fun r => "@ RIR " ++ String.mk r) }

/-- Substring containment on character lists (used to state the spec's
"description containing ..." phrasing): some split exposes the segment. -/
def segAt : List Char → List Char → Bool
  | [], _ => true
  | _ :: _, [] => false
  | p :: ps, c :: cs => p == c && segAt ps cs

/-- `hasSeg pat l` scans `l` for an occurrence of the segment `pat`. -/
def hasSeg (pat : List Char) : List Char → Bool
  | [] => pat.isEmpty
  | c :: cs => segAt pat (c :: cs) || hasSeg pat cs

/-- The `bench` exercise of the source's dev sanity test (increment 2.5). -/
def exBench : Exercise :=
  { id := "bench", name := "Bench", group := "upper", defaultIncrement := 5/2 }

/-- A last set `load 60, reps 8, RIR 3`, as in the spec's example. -/
def sRir3 : SetEntry :=
  { id := "1", sessionId := "s", exerciseId := "bench", weight := 60, reps := 8, rir := 3 }

/-- A last set `load 60, reps 8, RIR 1`, as in the spec's example. -/
def sRir1 : SetEntry :=
  { id := "2", sessionId := "s", exerciseId := "bench", weight := 60, reps := 8, rir := 1 }

/-- An exercise whose `defaultIncrement` is 0, exposing the
`ex.defaultIncrement || DEFAULT_INCREMENT` fallback of `suggestNext`. -/
def exZeroInc : Exercise :=
  { id := "zero", name := "Zero", group := "upper", defaultIncrement := 0 }

end Advisor

/-! ### Order facts about the JavaScript string comparison -/

theorem strLtAux_irrefl : ∀ l, strLtAux l l = false := by
  intro l
  induction l with
  | nil => rfl
  | cons a as ih => simp [strLtAux, ih]

theorem strLtAux_asymm : ∀ l m, strLtAux l m = true → strLtAux m l = false := by
  intro l
  induction l with
  | nil => intro m h; cases m <;> simp_all [strLtAux]
  | cons a as ih =>
    intro m h
    cases m with
    | nil => simp [strLtAux] at h
    | cons b bs =>
      simp only [strLtAux] at h ⊢
      by_cases hab : a.toNat < b.toNat
      · simp [hab, Nat.lt_asymm hab]
      · by_cases hba : b.toNat < a.toNat
        · simp [hab, hba] at h
        · simp only [hab, hba, if_false, if_neg] at h ⊢
          simp [ih bs h, hba, hab]

theorem strLtAux_linear :
    ∀ l n, strLtAux l n = true → ∀ m, strLtAux l m = true ∨ strLtAux m n = true := by
  intro l
  induction l with
  | nil =>
    intro n h m
    cases n with
    | nil => simp [strLtAux] at h
    | cons c cs =>
      cases m with
      | nil => right; simp [strLtAux]
      | cons b bs => left; simp [strLtAux]
  | cons a as ih =>
    intro n h m
    cases n with
    | nil => simp [strLtAux] at h
    | cons c cs =>
      cases m with
      | nil => right; simp [strLtAux]
      | cons b bs =>
        simp only [strLtAux] at h ⊢
        by_cases hac : a.toNat < c.toNat
        · by_cases hab : a.toNat < b.toNat
          · left; simp [hab]
          · right
            have hbc : b.toNat < c.toNat := by omega
            simp [hbc]
        · by_cases hca : c.toNat < a.toNat
          · simp [hac, hca] at h
          · simp only [hac, hca, if_false, if_neg] at h
            by_cases hab : a.toNat < b.toNat
            · left; simp [hab]
            · by_cases hba : b.toNat < a.toNat
              · right
                have hbc : b.toNat < c.toNat := by omega
                simp [hbc]
              · have hbc : ¬ b.toNat < c.toNat := by omega
                have hcb : ¬ c.toNat < b.toNat := by omega
                rcases ih cs h bs with h1 | h2
                · left; simp [hab, hba, h1]
                · right; simp [hbc, hcb, h2]

theorem strLe_refl (a : String) : strLe a a = true := by
  simp [strLe, strLt, strLtAux_irrefl]

theorem strLe_total (a b : String) (h : strLe a b = false) : strLe b a = true := by
  simp only [strLe, strLt, Bool.not_eq_false'] at h
  simp [strLe, strLt, strLtAux_asymm _ _ h]

theorem strLe_trans (a b c : String) (h1 : strLe a b = true) (h2 : strLe b c = true) :
    strLe a c = true := by
  simp only [strLe, strLt, Bool.not_eq_true'] at h1 h2 ⊢
  by_contra h
  have h' : strLtAux c.data a.data = true := by
    cases hx : strLtAux c.data a.data
    · simp [hx] at h
    · rfl
  rcases strLtAux_linear _ _ h' b.data with hcb | hba
  · simp [hcb] at h2
  · simp [hba] at h1

/-! ### The descending insertion sort modelling `.sort((a, b) => a.date < b.date ? 1 : -1)` -/

theorem insertDesc_ne_nil (x : Ledger.ExerciseLog) (l : List Ledger.ExerciseLog) :
    Ledger.insertDesc x l ≠ [] := by
  cases l with
  | nil => simp [Ledger.insertDesc]
  | cons y ys =>
    simp only [Ledger.insertDesc]
    by_cases h : strLe y.date x.date = true <;> simp [h]

theorem mem_insertDesc (x a : Ledger.ExerciseLog) (l : List Ledger.ExerciseLog) :
    a ∈ Ledger.insertDesc x l ↔ a = x ∨ a ∈ l := by
  induction l with
  | nil => simp [Ledger.insertDesc]
  | cons y ys ih =>
    simp only [Ledger.insertDesc]
    by_cases h : strLe y.date x.date = true
    · simp [h]
    · rw [Bool.not_eq_true] at h
      simp only [h, Bool.false_eq_true, if_false, List.mem_cons, ih]
      tauto

theorem insertDesc_headMax (a : Ledger.ExerciseLog) (m : List Ledger.ExerciseLog)
    (hm : ∀ h t, m = h :: t → ∀ z ∈ m, strLe z.date h.date = true) :
    ∀ h t, Ledger.insertDesc a m = h :: t →
      ∀ z ∈ Ledger.insertDesc a m, strLe z.date h.date = true := by
  cases m with
  | nil =>
    intro h t heq z hz
    simp [Ledger.insertDesc] at heq hz
    rw [hz, ← heq.1]
    exact strLe_refl _
  | cons y ys =>
    intro h t heq z hz
    simp only [Ledger.insertDesc] at heq hz
    by_cases hle : strLe y.date a.date = true
    · rw [if_pos hle] at heq hz
      have hha : h = a := by
        cases heq; rfl
      rcases (List.mem_cons).mp hz with hz1 | hz2
      · rw [hz1, hha]; exact strLe_refl _
      · have hzy : strLe z.date y.date = true :=
          hm y ys rfl z hz2
        rw [hha]
        exact strLe_trans _ _ _ hzy hle
    · rw [if_neg hle] at heq hz
      have hha : h = y := by cases heq; rfl
      have hay : strLe a.date y.date = true := by
        cases hx : strLe y.date a.date
        · exact strLe_total _ _ hx
        · exact absurd hx hle
      rcases (List.mem_cons).mp hz with hz1 | hz2
      · rw [hz1, hha]; exact strLe_refl _
      · rcases (mem_insertDesc a z ys).mp hz2 with hz3 | hz4
        · rw [hz3, hha]; exact hay
        · rw [hha]
          exact hm y ys rfl z (List.mem_cons_of_mem _ hz4)

theorem mem_sortDesc (a : Ledger.ExerciseLog) (l : List Ledger.ExerciseLog) :
    a ∈ Ledger.sortDesc l ↔ a ∈ l := by
  induction l with
  | nil => simp [Ledger.sortDesc]
  | cons x xs ih =>
    simp only [Ledger.sortDesc, List.foldr_cons]
    rw [mem_insertDesc]
    simp only [Ledger.sortDesc] at ih
    rw [ih, List.mem_cons]

theorem sortDesc_eq_nil_iff (l : List Ledger.ExerciseLog) :
    Ledger.sortDesc l = [] ↔ l = [] := by
  cases l with
  | nil => simp [Ledger.sortDesc]
  | cons x xs =>
    simp only [Ledger.sortDesc, List.foldr_cons]
    constructor
    · intro h; exact absurd h (insertDesc_ne_nil _ _)
    · intro h; cases h

theorem sortDesc_headMax (l : List Ledger.ExerciseLog) :
    ∀ h t, Ledger.sortDesc l = h :: t → ∀ z ∈ l, strLe z.date h.date = true := by
  induction l with
  | nil => intro h t heq; cases heq
  | cons x xs ih =>
    intro h t heq z hz
    have hmain := insertDesc_headMax x (Ledger.sortDesc xs) ?_ h t ?_
    · have hz' : z ∈ Ledger.insertDesc x (Ledger.sortDesc xs) := by
        rw [mem_insertDesc, mem_sortDesc]
        rcases (List.mem_cons).mp hz with h1 | h2
        · exact Or.inl h1
        · exact Or.inr h2
      exact hmain z hz'
    · intro h' t' heq' z' hz'
      have hz'' : z' ∈ xs := (mem_sortDesc z' xs).mp (heq' ▸ hz')
      exact ih h' t' heq' z' hz''
    · simpa [Ledger.sortDesc] using heq

/-! ### Record-update and replacement-filter facts -/

theorem mem_recordSet (m : List (String × ℚ)) (k : String) (v : ℚ) (p : String × ℚ)
    (hp : p ∈ Ledger.recordSet m k v) : p = (k, v) ∨ p ∈ m := by
  simp only [Ledger.recordSet] at hp
  by_cases h : m.any (fun q => q.1 == k) = true
  · rw [if_pos h] at hp
    rcases List.mem_map.mp hp with ⟨q, hq, hqe⟩
    by_cases hk : q.1 == k
    · left; rw [← hqe]; simp [hk]
    · right
      rw [← hqe]
      simp only [hk, Bool.false_eq_true, if_false]
      simpa using hq
  · rw [if_neg h] at hp
    rcases List.mem_append.mp hp with h1 | h2
    · right; exact h1
    · left; simpa using h2

theorem recordSet_ne_nil (m : List (String × ℚ)) (k : String) (v : ℚ) :
    Ledger.recordSet m k v ≠ [] := by
  simp only [Ledger.recordSet]
  by_cases h : m.any (fun q => q.1 == k) = true
  · rw [if_pos h]
    intro hc
    rcases m with _ | ⟨q, qs⟩
    · simp at h
    · simp at hc
  · rw [if_neg h]
    simp

theorem foldl_recordSet_ne_nil (rows : List Ledger.RemoteRestRow) :
    ∀ m : List (String × ℚ), m ≠ [] →
      rows.foldl (fun m r => Ledger.recordSet m r.exercise_id (jsNumOr0 r.seconds)) m ≠ [] := by
  induction rows with
  | nil => intro m hm; simpa using hm
  | cons r rs ih =>
    intro m _
    simp only [List.foldl_cons]
    exact ih _ (recordSet_ne_nil m r.exercise_id (jsNumOr0 r.seconds))

theorem buildRemoteRest_ne_nil (rows : List Ledger.RemoteRestRow) (h : rows ≠ []) :
    Ledger.buildRemoteRest rows ≠ [] := by
  rcases rows with _ | ⟨r, rs⟩
  · exact absurd rfl h
  · simp only [Ledger.buildRemoteRest, List.foldl_cons]
    exact foldl_recordSet_ne_nil rs _ (recordSet_ne_nil [] r.exercise_id (jsNumOr0 r.seconds))

theorem applyPull_ok_restOverrides (st : Ledger.AppState)
    (logsRows : List Ledger.RemoteLogRow) (restRows : List Ledger.RemoteRestRow)
    (hne : restRows ≠ []) :
    (Ledger.applyPull st (Except.ok (logsRows, restRows))).restOverrides =
      Ledger.buildRemoteRest restRows := by
  have hRL : (Ledger.buildRemoteRest restRows).length ≠ 0 := by
    simpa [List.length_eq_zero] using buildRemoteRest_ne_nil restRows hne
  by_cases hL : (logsRows.map Ledger.rowToLog).length ≠ 0 <;>
    simp [Ledger.applyPull, hL, hRL]

theorem mem_foldl_recordSet (rows : List Ledger.RemoteRestRow) :
    ∀ (m : List (String × ℚ)) (p : String × ℚ),
      p ∈ rows.foldl (fun m r => Ledger.recordSet m r.exercise_id (jsNumOr0 r.seconds)) m →
      p ∈ m ∨ ∃ r ∈ rows, p = (r.exercise_id, jsNumOr0 r.seconds) := by
  induction rows with
  | nil => intro m p hp; left; simpa using hp
  | cons r rs ih =>
    intro m p hp
    simp only [List.foldl_cons] at hp
    rcases ih _ p hp with h1 | h2
    · rcases mem_recordSet _ _ _ _ h1 with h3 | h4
      · right; exact ⟨r, List.mem_cons_self r rs, h3⟩
      · left; exact h4
    · rcases h2 with ⟨r', hr', he⟩
      right; exact ⟨r', List.mem_cons_of_mem _ hr', he⟩

theorem mem_buildRemoteRest (rows : List Ledger.RemoteRestRow) (p : String × ℚ)
    (hp : p ∈ Ledger.buildRemoteRest rows) :
    ∃ r ∈ rows, p = (r.exercise_id, jsNumOr0 r.seconds) := by
  rcases mem_foldl_recordSet rows [] p hp with h1 | h2
  · simp at h1
  · exact h2

theorem filter_removePair_self (logs : List Ledger.ExerciseLog) (D E : String) :
    (Ledger.removePair logs D E).filter (Ledger.pairPred D E) = [] := by
  induction logs with
  | nil => rfl
  | cons l ls ih =>
    simp only [Ledger.removePair, List.filter_cons] at ih ⊢
    cases hp : Ledger.pairPred D E l
    · simp [hp, ih]
    · simp [hp, ih]

theorem filter_removePair_other (logs : List Ledger.ExerciseLog) (D E d e : String)
    (hne : ¬ (d = D ∧ e = E)) :
    (Ledger.removePair logs D E).filter (Ledger.pairPred d e) =
      logs.filter (Ledger.pairPred d e) := by
  induction logs with
  | nil => rfl
  | cons l ls ih =>
    simp only [Ledger.removePair, List.filter_cons] at ih ⊢
    cases hq : Ledger.pairPred d e l
    · cases hp : Ledger.pairPred D E l
      · simpa [hp, hq] using ih
      · simpa [hp, hq] using ih
    · have hql : l.date = d ∧ l.exerciseId = e := by
        simpa [Ledger.pairPred] using hq
      have hp : Ledger.pairPred D E l = false := by
        simp only [Ledger.pairPred, hql.1, hql.2]
        by_cases h1 : d = D
        · have h2 : e ≠ E := fun hc => hne ⟨h1, hc⟩
          simp [h2]
        · simp [h1]
      simpa [hp, hq] using ih

theorem commitSets_id (ex : Ledger.Exercise) (sets : List Ledger.SetEntry)
    (h : ex.trackWeight = true) : Ledger.commitSets ex sets = sets := by
  induction sets with
  | nil => rfl
  | cons s ss ih =>
    simp only [Ledger.commitSets, List.map_cons] at ih ⊢
    rw [ih, h]
    simp

/-! ### Claim theorems -/

/-- C8: for every load >= 0 and integer reps >= 0, `estimatedMax(load, reps)`
(source `epleyE1RM`) equals the load when reps <= 1 and
`load * (1 + reps/30)` when reps >= 2. -/
theorem c8_estimated_max (load : ℚ) (reps : ℕ) (_h0 : 0 ≤ load) :
    (reps ≤ 1 → Advisor.epleyE1RM load reps = load) ∧
    (2 ≤ reps → Advisor.epleyE1RM load reps = load * (1 + (reps : ℚ) / 30)) := by
  refine ⟨fun h1 => ?_, fun h2 => ?_⟩
  · have hc : ((reps : ℚ)) ≤ 1 := by exact_mod_cast h1
    simp [Advisor.epleyE1RM, hc]
  · have hc : ¬ ((reps : ℚ) ≤ 1) := by
      push_neg
      exact_mod_cast h2
    simp [Advisor.epleyE1RM, hc]

/-- Witness for C8 at concrete inputs: the dev-test instance reps = 10,
load = 100, and the single-rep case reps = 1, load = 80. -/
theorem c8_estimated_max_witness :
    Advisor.epleyE1RM 100 ((10 : ℕ) : ℚ) = 100 * (1 + ((10 : ℕ) : ℚ) / 30) ∧
    Advisor.epleyE1RM 80 ((1 : ℕ) : ℚ) = 80 :=
  ⟨(c8_estimated_max 100 10 (by norm_num)).2 (by norm_num),
   (c8_estimated_max 80 1 (by norm_num)).1 (by norm_num)⟩

/-- C10 (implicit): when `ex.trackWeight` is false, every log committed by
`saveToday` or by the debounced auto-save stores weight 0 in every set,
whatever weights the editable rows held. -/
theorem c10_untracked_weight_zero (logs : List Ledger.ExerciseLog) (D : String)
    (ex : Ledger.Exercise) (sets : List Ledger.SetEntry) (hw : ex.trackWeight = false) :
    (∀ s ∈ Ledger.commitSets ex sets, s.weight = 0) ∧
    (Ledger.validSets sets = true →
      ∃ pre newLog, (Ledger.saveToday logs D ex sets).logs = pre ++ [newLog] ∧
        ∀ s ∈ newLog.sets, s.weight = 0) ∧
    (sets ≠ [] →
      ∃ pre newLog, Ledger.autoSaveCommit logs D ex sets = pre ++ [newLog] ∧
        ∀ s ∈ newLog.sets, s.weight = 0) := by
  have hzero : ∀ ss : List Ledger.SetEntry, ∀ s ∈ Ledger.commitSets ex ss, s.weight = 0 := by
    intro ss s hs
    rcases List.mem_map.mp hs with ⟨s0, _, he⟩
    rw [← he]
    simp [hw]
  refine ⟨hzero sets, fun hv => ?_, fun hne => ?_⟩
  · refine ⟨Ledger.removePair logs D ex.id,
      { date := D, day := ex.day, exerciseId := ex.id, exerciseName := ex.name,
        sets := Ledger.commitSets ex sets }, ?_, hzero sets⟩
    simp [Ledger.saveToday, hv]
  · have hlen : ¬ (sets.length = 0) := by
      simpa [List.length_eq_zero] using hne
    refine ⟨Ledger.removePair logs D ex.id,
      { date := D, day := ex.day, exerciseId := ex.id, exerciseName := ex.name,
        sets := Ledger.commitSets ex (sets.map Ledger.sanitizeSet) }, ?_,
      hzero (sets.map Ledger.sanitizeSet)⟩
    simp [Ledger.autoSaveCommit, hlen]

/-- Witness for C10: an auto-save of the dead bug (weight untracked) with
an edited weight of 25 commits a log whose only set has weight 0. -/
theorem c10_untracked_weight_zero_witness :
    ∃ pre newLog,
      Ledger.autoSaveCommit [] ("2024-01-05") Ledger.deadBug [{ reps := 8, weight := 25 }] =
        pre ++ [newLog] ∧ ∀ s ∈ newLog.sets, s.weight = 0 :=
  (c10_untracked_weight_zero [] ("2024-01-05") Ledger.deadBug [{ reps := 8, weight := 25 }]
    rfl).2.2 (by simp)

/-- C2 (amended): the explicit `saveToday` rejects an empty set list, a
non-positive rep count or a negative load with the corrective alert and
leaves the ledger unchanged; the debounced auto-save rejects only an empty
set list and otherwise commits the sanitized set list (reps rounded and
clamped to >= 0, weights rounded to 0.5 steps and clamped to >= 0) even
when some submitted reps are <= 0. -/
theorem c2_save_validation_amended :
    (∀ (logs : List Ledger.ExerciseLog) (D : String) (ex : Ledger.Exercise)
       (sets : List Ledger.SetEntry),
       (sets = [] ∨ (∃ s ∈ sets, s.reps ≤ 0) ∨ (∃ s ∈ sets, s.weight < 0)) →
       Ledger.saveToday logs D ex sets =
         { logs := logs, alertMsg := some Ledger.invalidMsg }) ∧
    (∀ (logs : List Ledger.ExerciseLog) (D : String) (ex : Ledger.Exercise),
       Ledger.autoSaveCommit logs D ex [] = logs) ∧
    (∀ (logs : List Ledger.ExerciseLog) (D : String) (ex : Ledger.Exercise)
       (sets : List Ledger.SetEntry), sets ≠ [] →
       Ledger.autoSaveCommit logs D ex sets =
         Ledger.removePair logs D ex.id ++
           [{ date := D, day := ex.day, exerciseId := ex.id, exerciseName := ex.name,
              sets := Ledger.commitSets ex (sets.map Ledger.sanitizeSet) }]) ∧
    (∀ (sets : List Ledger.SetEntry) (s : Ledger.SetEntry),
       s ∈ sets.map Ledger.sanitizeSet → 0 ≤ s.reps ∧ 0 ≤ s.weight) := by
  refine ⟨fun logs D ex sets hbad => ?_, fun logs D ex => ?_, fun logs D ex sets hne => ?_,
    fun sets s hs => ?_⟩
  · have hv : Ledger.validSets sets = false := by
      rw [← Bool.not_eq_true]
      intro hv
      simp only [Ledger.validSets, Bool.and_eq_true, decide_eq_true_eq,
        List.all_eq_true] at hv
      obtain ⟨hlen, hall⟩ := hv
      rcases hbad with h1 | ⟨s, hs, hr⟩ | ⟨s, hs, hw⟩
      · rw [h1] at hlen; simp at hlen
      · rcases hall s hs with ⟨hr', _⟩
        linarith
      · rcases hall s hs with ⟨_, hw'⟩
        linarith
    simp [Ledger.saveToday, hv]
  · simp [Ledger.autoSaveCommit]
  · have hlen : ¬ ([] = sets) := fun h => hne h.symm
    simp only [Ledger.autoSaveCommit, List.length_eq_zero]
    rw [if_neg (fun h => hne h)]
  · rcases List.mem_map.mp hs with ⟨s0, _, he⟩
    rw [← he]
    exact ⟨le_max_left _ _, le_max_left _ _⟩

/-- Counterexample to C2 as stated: the debounced auto-save, given the set
list with a single set of 0 reps and weight 60 (which `saveToday` rejects),
does not leave the stored logs unchanged: it commits a log holding that
zero-rep set. -/
theorem c2_save_validation_counterexample :
    Ledger.validSets [{ reps := 0, weight := 60 }] = false ∧
    Ledger.saveToday [] ("2024-01-05") Ledger.frontSquat [{ reps := 0, weight := 60 }] =
      { logs := [], alertMsg := some Ledger.invalidMsg } ∧
    Ledger.autoSaveCommit [] ("2024-01-05") Ledger.frontSquat [{ reps := 0, weight := 60 }] =
      [{ date := "2024-01-05", day := "Legs Anterior", exerciseId := "front-squat",
         exerciseName := "Front Squat", sets := [{ reps := 0, weight := 60 }] }] := by
  refine ⟨by decide, ?_, ?_⟩
  · have hv : Ledger.validSets [{ reps := 0, weight := 60 }] = false := by decide
    simp [Ledger.saveToday, hv]
  · simp [Ledger.autoSaveCommit, Ledger.removePair, Ledger.commitSets, Ledger.sanitizeSet,
      Ledger.roundToStep, jsRound, Ledger.frontSquat]
    norm_num

/-- Witness for C2 (amended) at concrete inputs: a save with an empty set
list is rejected with the alert and an empty auto-save is a no-op. -/
theorem c2_save_validation_witness :
    Ledger.saveToday [Ledger.logJan01] ("2024-01-06") Ledger.frontSquat [] =
      { logs := [Ledger.logJan01], alertMsg := some Ledger.invalidMsg } ∧
    Ledger.autoSaveCommit [Ledger.logJan01] ("2024-01-06") Ledger.frontSquat [] =
      [Ledger.logJan01] :=
  ⟨c2_save_validation_amended.1 [Ledger.logJan01] ("2024-01-06") Ledger.frontSquat []
     (Or.inl rfl),
   c2_save_validation_amended.2.1 [Ledger.logJan01] ("2024-01-06") Ledger.frontSquat⟩

/-- C1: a configured startup pull that succeeds with n >= 1 ledger rows
replaces the local ledger snapshot (state and localStorage mirror) with
exactly those n mapped rows; zero ledger rows leave the ledger untouched;
the same holds independently for rest-override rows; and a failed pull
leaves ledger and overrides untouched and surfaces the message through
the sync status signal. -/
theorem c1_startup_pull_remote_wins (st : Ledger.AppState)
    (logsRows : List Ledger.RemoteLogRow) (restRows : List Ledger.RemoteRestRow)
    (msg : String) :
    (logsRows ≠ [] →
       (Ledger.applyPull st (Except.ok (logsRows, restRows))).logs =
         logsRows.map Ledger.rowToLog ∧
       (Ledger.applyPull st (Except.ok (logsRows, restRows))).storedLogs =
         logsRows.map Ledger.rowToLog ∧
       (Ledger.applyPull st (Except.ok (logsRows, restRows))).logs.length =
         logsRows.length) ∧
    (logsRows = [] →
       (Ledger.applyPull st (Except.ok (logsRows, restRows))).logs = st.logs ∧
       (Ledger.applyPull st (Except.ok (logsRows, restRows))).storedLogs = st.storedLogs) ∧
    (restRows ≠ [] →
       (Ledger.applyPull st (Except.ok (logsRows, restRows))).restOverrides =
         Ledger.buildRemoteRest restRows ∧
       (Ledger.applyPull st (Except.ok (logsRows, restRows))).storedRest =
         Ledger.buildRemoteRest restRows) ∧
    (restRows = [] →
       (Ledger.applyPull st (Except.ok (logsRows, restRows))).restOverrides =
         st.restOverrides ∧
       (Ledger.applyPull st (Except.ok (logsRows, restRows))).storedRest = st.storedRest) ∧
    ((Ledger.applyPull st (Except.ok (logsRows, restRows))).syncError = "") ∧
    ((Ledger.applyPull st (Except.error msg)).logs = st.logs ∧
     (Ledger.applyPull st (Except.error msg)).storedLogs = st.storedLogs ∧
     (Ledger.applyPull st (Except.error msg)).restOverrides = st.restOverrides ∧
     (Ledger.applyPull st (Except.error msg)).storedRest = st.storedRest ∧
     (Ledger.applyPull st (Except.error msg)).syncError = msg) := by
  by_cases hL : logsRows = []
  · by_cases hR : restRows = []
    · subst hL; subst hR
      refine ⟨fun h => absurd rfl h, fun _ => ⟨?_, ?_⟩, fun h => absurd rfl h,
        fun _ => ⟨?_, ?_⟩, ?_, ?_, ?_, ?_, ?_, ?_⟩ <;>
        simp [Ledger.applyPull, Ledger.buildRemoteRest]
    · have hRR : Ledger.buildRemoteRest restRows ≠ [] := buildRemoteRest_ne_nil restRows hR
      have hRL : (Ledger.buildRemoteRest restRows).length ≠ 0 := by
        simpa [List.length_eq_zero] using hRR
      subst hL
      refine ⟨fun h => absurd rfl h, fun _ => ⟨?_, ?_⟩, fun _ => ⟨?_, ?_⟩,
        fun h => absurd h hR, ?_, ?_, ?_, ?_, ?_, ?_⟩ <;>
        simp [Ledger.applyPull, hRL]
  · have hLL : (logsRows.map Ledger.rowToLog).length ≠ 0 := by
      simpa [List.length_eq_zero] using hL
    by_cases hR : restRows = []
    · subst hR
      refine ⟨fun _ => ⟨?_, ?_, ?_⟩, fun h => absurd h hL, fun h => absurd rfl h,
        fun _ => ⟨?_, ?_⟩, ?_, ?_, ?_, ?_, ?_, ?_⟩ <;>
        simp [Ledger.applyPull, hLL, hL, Ledger.buildRemoteRest]
    · have hRR : Ledger.buildRemoteRest restRows ≠ [] := buildRemoteRest_ne_nil restRows hR
      have hRL : (Ledger.buildRemoteRest restRows).length ≠ 0 := by
        simpa [List.length_eq_zero] using hRR
      refine ⟨fun _ => ⟨?_, ?_, ?_⟩, fun h => absurd h hL, fun _ => ⟨?_, ?_⟩,
        fun h => absurd h hR, ?_, ?_, ?_, ?_, ?_, ?_⟩ <;>
        simp [Ledger.applyPull, hLL, hRL, hL, hR]

/-- Witness for C1: a pull returning one log row and one rest row against
a populated local state replaces both snapshots; a failed pull reports
its message. -/
theorem c1_startup_pull_witness :
    (Ledger.applyPull Ledger.stInRange
        (Except.ok ([{ date := "2024-02-01", day := "Push", exercise_id := "wrist-curl",
                       exercise_name := "Wrist Curl", sets := some [] }],
                    [{ exercise_id := "wrist-curl", seconds := some 90 }]))).logs =
      [{ date := "2024-02-01", day := "Push", exerciseId := "wrist-curl",
         exerciseName := "Wrist Curl", sets := [] }] ∧
    (Ledger.applyPull Ledger.stInRange (Except.error ("boom"))).syncError = "boom" :=
  ⟨((c1_startup_pull_remote_wins Ledger.stInRange
      [{ date := "2024-02-01", day := "Push", exercise_id := "wrist-curl",
         exercise_name := "Wrist Curl", sets := some [] }]
      [{ exercise_id := "wrist-curl", seconds := some 90 }] ("boom")).1
      (by simp)).1,
   (c1_startup_pull_remote_wins Ledger.stInRange
      [{ date := "2024-02-01", day := "Push", exercise_id := "wrist-curl",
         exercise_name := "Wrist Curl", sets := some [] }]
      [{ exercise_id := "wrist-curl", seconds := some 90 }] ("boom")).2.2.2.2.2.2.2.2.2⟩

/-- C4: `saveToday` preserves the at-most-one-log-per-(date, exerciseId)
invariant; saving twice for the same pair (weight-tracked exercise, valid
set lists) leaves exactly one log for the pair holding the second set list
in full; and the logs of every other pair are untouched by a save. -/
theorem c4_per_day_uniqueness :
    (∀ (logs : List Ledger.ExerciseLog) (D : String) (ex : Ledger.Exercise)
       (sets : List Ledger.SetEntry) (d e : String),
       Ledger.pairCount logs d e ≤ 1 →
       Ledger.pairCount (Ledger.saveToday logs D ex sets).logs d e ≤ 1) ∧
    (∀ (logs : List Ledger.ExerciseLog) (D : String) (ex : Ledger.Exercise)
       (s1 s2 : List Ledger.SetEntry),
       Ledger.validSets s1 = true → Ledger.validSets s2 = true → ex.trackWeight = true →
       (Ledger.saveToday (Ledger.saveToday logs D ex s1).logs D ex s2).logs.filter
           (Ledger.pairPred D ex.id) =
         [{ date := D, day := ex.day, exerciseId := ex.id, exerciseName := ex.name,
            sets := s2 }]) ∧
    (∀ (logs : List Ledger.ExerciseLog) (D : String) (ex : Ledger.Exercise)
       (sets : List Ledger.SetEntry) (d e : String), ¬ (d = D ∧ e = ex.id) →
       (Ledger.saveToday logs D ex sets).logs.filter (Ledger.pairPred d e) =
         logs.filter (Ledger.pairPred d e)) := by
  have hnew : ∀ (D : String) (ex : Ledger.Exercise) (d e : String) (ss : List Ledger.SetEntry),
      ¬ (d = D ∧ e = ex.id) →
      Ledger.pairPred d e
        { date := D, day := ex.day, exerciseId := ex.id, exerciseName := ex.name,
          sets := ss } = false := by
    intro D ex d e ss hne
    simp only [Ledger.pairPred]
    by_cases h1 : D = d
    · have h2 : ex.id ≠ e := fun hc => hne ⟨h1.symm, hc.symm⟩
      simp [h2]
    · simp [h1]
  refine ⟨fun logs D ex sets d e h => ?_, fun logs D ex s1 s2 hv1 hv2 htw => ?_,
    fun logs D ex sets d e hne => ?_⟩
  · cases hv : Ledger.validSets sets
    · simpa [Ledger.saveToday, hv] using h
    · simp only [Ledger.saveToday, hv, if_true, Ledger.pairCount, List.filter_append,
        List.length_append]
      by_cases hde : d = D ∧ e = ex.id
      · rw [hde.1, hde.2, filter_removePair_self]
        simp only [List.length_nil, Nat.zero_add]
        exact List.length_filter_le _ _
      · rw [filter_removePair_other logs D ex.id d e hde]
        rw [List.filter_cons, hnew D ex d e (Ledger.commitSets ex sets) hde]
        simpa using h
  · have hp : Ledger.pairPred D ex.id
        { date := D, day := ex.day, exerciseId := ex.id, exerciseName := ex.name,
          sets := Ledger.commitSets ex s2 } = true := by
      simp [Ledger.pairPred]
    simp only [Ledger.saveToday, hv1, hv2, if_true, List.filter_append, List.filter_cons, hp]
    rw [filter_removePair_self]
    simp [commitSets_id ex s2 htw]
  · cases hv : Ledger.validSets sets
    · simp [Ledger.saveToday, hv]
    · simp only [Ledger.saveToday, hv, if_true, List.filter_append, List.filter_cons,
        hnew D ex d e (Ledger.commitSets ex sets) hne]
      rw [filter_removePair_other logs D ex.id d e hne]
      simp

/-- Witness for C4 at concrete inputs: after saving the front squat twice
on 2024-01-20 with different set lists, exactly one log for the pair
remains and it holds the second set list. -/
theorem c4_per_day_uniqueness_witness :
    (Ledger.saveToday
        (Ledger.saveToday [Ledger.logJan01] ("2024-01-20") Ledger.frontSquat
          [{ reps := 5, weight := 60 }]).logs
        ("2024-01-20") Ledger.frontSquat
        [{ reps := 3, weight := 70 }, { reps := 3, weight := 72 }]).logs.filter
      (Ledger.pairPred ("2024-01-20") ("front-squat")) =
    [{ date := "2024-01-20", day := "Legs Anterior", exerciseId := "front-squat",
       exerciseName := "Front Squat",
       sets := [{ reps := 3, weight := 70 }, { reps := 3, weight := 72 }] }] :=
  c4_per_day_uniqueness.2.1 [Ledger.logJan01] ("2024-01-20") Ledger.frontSquat
    [{ reps := 5, weight := 60 }] [{ reps := 3, weight := 70 }, { reps := 3, weight := 72 }]
    (by decide) (by decide) rfl

/-- C5: when only a legacy v1 snapshot exists, `loadLogs` turns each legacy
log of weight W into exactly one set with reps 0 and weight W, persists
the migrated snapshot under the v2 key leaving the v1 key untouched, and a
second `loadLogs` returns the identical migrated snapshot and state. -/
theorem c5_migration_idempotent (st : Ledger.LocalStore) (old : List Ledger.LegacyLog)
    (h2 : st.logsV2 = none) (h1 : st.logsV1 = some old) :
    (Ledger.loadLogs st).1 = old.map Ledger.migrateV1 ∧
    (∀ l ∈ old, ∀ w : ℚ, l.weight = some w →
       Ledger.migrateV1 l =
         { date := l.date, day := l.day, exerciseId := l.exerciseId,
           exerciseName := l.exerciseName, sets := [{ reps := 0, weight := w }] }) ∧
    (Ledger.loadLogs st).2.logsV1 = some old ∧
    (Ledger.loadLogs st).2.logsV2 = some (old.map Ledger.migrateV1) ∧
    Ledger.loadLogs (Ledger.loadLogs st).2 =
      ((Ledger.loadLogs st).1, (Ledger.loadLogs st).2) := by
  have hload : Ledger.loadLogs st =
      (old.map Ledger.migrateV1, { st with logsV2 := some (old.map Ledger.migrateV1) }) := by
    simp [Ledger.loadLogs, h2, h1]
  refine ⟨by rw [hload], fun l _ w hw => ?_, by rw [hload, h1], by rw [hload], ?_⟩
  · simp [Ledger.migrateV1, hw, jsNumOr0]
  · rw [hload]
    simp [Ledger.loadLogs]

/-- Witness for C5: a store holding only one legacy log of weight 50 loads
as the single migrated log with the one set reps 0, weight 50. -/
theorem c5_migration_idempotent_witness :
    (Ledger.loadLogs
        { logsV2 := none,
          logsV1 := some [{ date := "2024-01-01", day := "Push", exerciseId := "wrist-curl",
                            exerciseName := "Wrist Curl", weight := some 50 }] }).1 =
      [Ledger.migrateV1
        { date := "2024-01-01", day := "Push", exerciseId := "wrist-curl",
          exerciseName := "Wrist Curl", weight := some 50 }] :=
  (c5_migration_idempotent
    { logsV2 := none,
      logsV1 := some [{ date := "2024-01-01", day := "Push", exerciseId := "wrist-curl",
                        exerciseName := "Wrist Curl", weight := some 50 }] }
    [{ date := "2024-01-01", day := "Push", exerciseId := "wrist-curl",
       exerciseName := "Wrist Curl", weight := some 50 }] rfl rfl).1

/-- C6: `getLastLogForExercise` returns, among the logs with the given
exerciseId and date at most the cutoff (all logs of the exercise when no
cutoff is given), one with the maximum date, and `none` exactly when no
such log exists; in particular over front-squat logs dated 2024-01-01,
2024-01-08 and 2024-01-15 the cutoff 2024-01-10 yields the 2024-01-08
entry. -/
theorem c6_most_recent_log (E : String) (logs : List Ledger.ExerciseLog) (cutoff : String) :
    (Ledger.getLastLogForExercise E logs (some cutoff) = none ↔
       ∀ l ∈ logs, ¬ (l.exerciseId = E ∧ strLe l.date cutoff = true)) ∧
    (∀ log, Ledger.getLastLogForExercise E logs (some cutoff) = some log →
       log ∈ logs ∧ log.exerciseId = E ∧ strLe log.date cutoff = true ∧
       ∀ l ∈ logs, l.exerciseId = E → strLe l.date cutoff = true →
         strLe l.date log.date = true) ∧
    (∀ log, Ledger.getLastLogForExercise E logs none = some log →
       log ∈ logs ∧ log.exerciseId = E ∧
       ∀ l ∈ logs, l.exerciseId = E → strLe l.date log.date = true) ∧
    Ledger.getLastLogForExercise ("front-squat")
        [Ledger.logJan01, Ledger.logJan08, Ledger.logJan15] (some ("2024-01-10")) =
      some Ledger.logJan08 := by
  have hpred : ∀ (bd : Option String) (l : Ledger.ExerciseLog),
      Ledger.lookupPred E bd l = true ↔
        (l.exerciseId = E ∧ ∀ d, bd = some d → strLe l.date d = true) := by
    intro bd l
    cases bd with
    | none => simp [Ledger.lookupPred]
    | some d => simp [Ledger.lookupPred]
  have main : ∀ (bd : Option String) (log : Ledger.ExerciseLog),
      Ledger.getLastLogForExercise E logs bd = some log →
      log ∈ logs ∧ Ledger.lookupPred E bd log = true ∧
      ∀ l ∈ logs, Ledger.lookupPred E bd l = true → strLe l.date log.date = true := by
    intro bd log hlog
    simp only [Ledger.getLastLogForExercise] at hlog
    rcases hs : Ledger.sortDesc (logs.filter (Ledger.lookupPred E bd)) with _ | ⟨h, t⟩
    · rw [hs] at hlog; simp at hlog
    · rw [hs] at hlog
      simp only [List.head?_cons, Option.some.injEq] at hlog
      have hmem : log ∈ Ledger.sortDesc (logs.filter (Ledger.lookupPred E bd)) := by
        rw [hs, hlog]; exact List.mem_cons_self _ _
      have hmemf : log ∈ logs.filter (Ledger.lookupPred E bd) :=
        (mem_sortDesc _ _).mp hmem
      rcases List.mem_filter.mp hmemf with ⟨hmlogs, hprd⟩
      refine ⟨hmlogs, hprd, fun l hl hpl => ?_⟩
      have hlf : l ∈ logs.filter (Ledger.lookupPred E bd) :=
        List.mem_filter.mpr ⟨hl, hpl⟩
      have := sortDesc_headMax (logs.filter (Ledger.lookupPred E bd)) h t hs l hlf
      rwa [← hlog]
  refine ⟨?_, fun log hlog => ?_, fun log hlog => ?_, by decide⟩
  · simp only [Ledger.getLastLogForExercise, List.head?_eq_none_iff, sortDesc_eq_nil_iff,
      List.filter_eq_nil_iff]
    constructor
    · intro h l hl hc
      exact h l hl (((hpred (some cutoff) l).mpr
        ⟨hc.1, fun d hd => by cases hd; exact hc.2⟩) ▸ rfl)
    · intro h l hl hp
      rcases (hpred (some cutoff) l).mp hp with ⟨he, hd⟩
      exact h l hl ⟨he, hd cutoff rfl⟩
  · rcases main (some cutoff) log hlog with ⟨h1, h2, h3⟩
    rcases (hpred (some cutoff) log).mp h2 with ⟨he, hd⟩
    refine ⟨h1, he, hd cutoff rfl, fun l hl hle hld => ?_⟩
    exact h3 l hl ((hpred (some cutoff) l).mpr ⟨hle, fun d hdd => by cases hdd; exact hld⟩)
  · rcases main none log hlog with ⟨h1, h2, h3⟩
    rcases (hpred none log).mp h2 with ⟨he, _⟩
    refine ⟨h1, he, fun l hl hle => ?_⟩
    exact h3 l hl ((hpred none l).mpr ⟨hle, fun d hdd => by cases hdd⟩)

/-- Witness for C6: instantiating the maximality part at the concrete
three-log ledger shows the 2024-01-01 entry dates no later than the
returned 2024-01-08 entry. -/
theorem c6_most_recent_log_witness :
    strLe Ledger.logJan01.date Ledger.logJan08.date = true :=
  ((c6_most_recent_log ("front-squat")
      [Ledger.logJan01, Ledger.logJan08, Ledger.logJan15] ("2024-01-10")).2.1
    Ledger.logJan08 (by decide)).2.2.2 Ledger.logJan01 (by decide) (by decide) (by decide)

/-- C7 (amended): `suggestNext` on an empty history suggests no weight and
target reps 8; it reads only the last element of the given history; with
last proximity p >= 3 it suggests `w + defaultIncrement` when the
exercise's increment is nonzero and `w + 2.5` (the module default) when
the increment is 0, keeping the reps; with p <= 2 it suggests the same
weight and reps + 1, the p = 2 branch numerically identical to the p <= 1
branch with only the advisory text differing; the two spec examples hold. -/
theorem c7_suggest_next_amended :
    (∀ ex : Advisor.Exercise, (Advisor.suggestNext ex []).nextWeight = none ∧
       (Advisor.suggestNext ex []).nextReps = 8) ∧
    (∀ (ex : Advisor.Exercise) (l1 l2 : List Advisor.SetEntry),
       l1.getLast? = l2.getLast? → Advisor.suggestNext ex l1 = Advisor.suggestNext ex l2) ∧
    (∀ (ex : Advisor.Exercise) (l : List Advisor.SetEntry) (recent : Advisor.SetEntry),
       l.getLast? = some recent → 3 ≤ recent.rir →
       (Advisor.suggestNext ex l).nextWeight =
         some (recent.weight +
           (if ex.defaultIncrement = 0 then Advisor.DEFAULT_INCREMENT
            else ex.defaultIncrement)) ∧
       (Advisor.suggestNext ex l).nextReps = recent.reps) ∧
    (∀ (ex : Advisor.Exercise) (l : List Advisor.SetEntry) (recent : Advisor.SetEntry),
       l.getLast? = some recent → recent.rir ≤ 2 →
       (Advisor.suggestNext ex l).nextWeight = some recent.weight ∧
       (Advisor.suggestNext ex l).nextReps = recent.reps + 1) ∧
    (∀ (ex : Advisor.Exercise) (r r2 : Advisor.SetEntry), r.rir = 2 → r2.rir ≤ 1 →
       r2.weight = r.weight → r2.reps = r.reps →
       (Advisor.suggestNext ex [r]).nextWeight = (Advisor.suggestNext ex [r2]).nextWeight ∧
       (Advisor.suggestNext ex [r]).nextReps = (Advisor.suggestNext ex [r2]).nextReps ∧
       (Advisor.suggestNext ex [r]).advice ≠ (Advisor.suggestNext ex [r2]).advice) ∧
    ((Advisor.suggestNext Advisor.exBench [Advisor.sRir3]).nextWeight = some (125/2) ∧
     (Advisor.suggestNext Advisor.exBench [Advisor.sRir3]).nextReps = 8) ∧
    ((Advisor.suggestNext Advisor.exBench [Advisor.sRir1]).nextWeight = some 60 ∧
     (Advisor.suggestNext Advisor.exBench [Advisor.sRir1]).nextReps = 9) := by
  refine ⟨fun ex => ?_, fun ex l1 l2 h => ?_, fun ex l recent hlast h3 => ?_,
    fun ex l recent hlast h2 => ?_, fun ex r r2 hr2 hr1 hw hreps => ?_, ?_, ?_⟩
  · simp [Advisor.suggestNext]
  · simp only [Advisor.suggestNext, h]
  · simp [Advisor.suggestNext, hlast, h3, Advisor.jsOr]
  · have h3 : ¬ (recent.rir ≥ 3) := by omega
    by_cases h1 : recent.rir ≤ 1 <;> simp [Advisor.suggestNext, hlast, h3, h1]
  · have h3 : ¬ (r.rir ≥ 3) := by omega
    have h1 : ¬ (r.rir ≤ 1) := by omega
    have h3' : ¬ (r2.rir ≥ 3) := by omega
    have h01 : r2.rir = 0 ∨ r2.rir = 1 := by omega
    rcases h01 with h0 | h0 <;>
      simp [Advisor.suggestNext, h3, h1, h3', h0, hw, hreps] <;> decide
  · constructor <;>
      norm_num [Advisor.suggestNext, Advisor.exBench, Advisor.sRir3, Advisor.jsOr,
        Advisor.DEFAULT_INCREMENT]
  · constructor <;>
      norm_num [Advisor.suggestNext, Advisor.exBench, Advisor.sRir1, Advisor.jsOr,
        Advisor.DEFAULT_INCREMENT]

/-- Counterexample to C7 as stated: for an exercise whose
`defaultIncrement` is 0, a last set of weight 60, reps 8 and proximity 3
yields a suggested weight of 62.5 (the `|| 2.5` fallback), not
`w + defaultIncrement = 60`. -/
theorem c7_suggest_next_counterexample :
    (Advisor.suggestNext Advisor.exZeroInc [Advisor.sRir3]).nextWeight = some (125/2) ∧
    Advisor.sRir3.weight + Advisor.exZeroInc.defaultIncrement = 60 ∧
    ((125 : ℚ)/2) ≠ 60 := by
  refine ⟨?_, by norm_num [Advisor.sRir3, Advisor.exZeroInc], by norm_num⟩
  norm_num [Advisor.suggestNext, Advisor.exZeroInc, Advisor.sRir3, Advisor.jsOr,
    Advisor.DEFAULT_INCREMENT]

/-- Witness for C7 (amended): the history-suffix conjunct at the concrete
bench history with last set of proximity 3. -/
theorem c7_suggest_next_witness :
    (Advisor.suggestNext Advisor.exBench [Advisor.sRir3]).nextWeight =
      some (Advisor.sRir3.weight +
        (if Advisor.exBench.defaultIncrement = 0 then Advisor.DEFAULT_INCREMENT
         else Advisor.exBench.defaultIncrement)) ∧
    (Advisor.suggestNext Advisor.exBench [Advisor.sRir3]).nextReps = Advisor.sRir3.reps :=
  c7_suggest_next_amended.2.2.1 Advisor.exBench [Advisor.sRir3] Advisor.sRir3 rfl
    (by norm_num [Advisor.sRir3])

/-- C9 (amended): a user edit through `updateRest` writes a value clamped
to [10, 999] and preserves in-range values at other keys, so the invariant
holds for mappings written only by edits; but `loadRestOverrides` returns
the persisted mapping verbatim, and a remote pull replaces the mapping
with the raw `Number(r.seconds) || 0` values, neither path clamping to
[10, 999]. -/
theorem c9_rest_clamp_amended :
    (∀ (m : List (String × ℚ)) (exId : String) (sec : ℚ),
       (∀ p ∈ m, 10 ≤ p.2 ∧ p.2 ≤ 999) →
       ∀ p ∈ Ledger.updateRest m exId sec, 10 ≤ p.2 ∧ p.2 ≤ 999) ∧
    (∀ stored : List (String × ℚ), Ledger.loadRestOverrides (some stored) = stored) ∧
    (∀ (st : Ledger.AppState) (logsRows : List Ledger.RemoteLogRow)
       (restRows : List Ledger.RemoteRestRow), restRows ≠ [] →
       (Ledger.applyPull st (Except.ok (logsRows, restRows))).restOverrides =
         Ledger.buildRemoteRest restRows) ∧
    (∀ (rows : List Ledger.RemoteRestRow) (p : String × ℚ),
       p ∈ Ledger.buildRemoteRest rows →
       ∃ r ∈ rows, p = (r.exercise_id, jsNumOr0 r.seconds)) := by
  refine ⟨fun m exId sec hm p hp => ?_, fun stored => rfl,
    fun st logsRows restRows hne => ?_, fun rows p hp => mem_buildRemoteRest rows p hp⟩
  · rcases mem_recordSet _ _ _ _ hp with h1 | h2
    · rw [h1]
      refine ⟨le_max_left _ _, max_le (by norm_num) (min_le_left _ _)⟩
    · exact hm p h2
  · exact applyPull_ok_restOverrides st logsRows restRows hne

/-- Counterexample to C9 as stated: a pull whose rest row carries 5
seconds replaces the in-range local mapping with the value 5, which lies
outside [10, 999]. -/
theorem c9_rest_clamp_counterexample :
    (Ledger.applyPull Ledger.stInRange
        (Except.ok ([], [{ exercise_id := "front-squat", seconds := some 5 }]))).restOverrides =
      [("front-squat", 5)] ∧
    (∀ p ∈ Ledger.stInRange.restOverrides, 10 ≤ p.2 ∧ p.2 ≤ 999) ∧
    ¬ ((10 : ℚ) ≤ 5) := by
  refine ⟨?_, ?_, by norm_num⟩
  · simp [Ledger.applyPull, Ledger.buildRemoteRest, Ledger.recordSet, jsNumOr0]
  · intro p hp
    simp only [Ledger.stInRange, List.mem_singleton] at hp
    rw [hp]
    norm_num

/-- Witness for C9 (amended): an edit writing 20 seconds on an empty
mapping yields the in-range value 20. -/
theorem c9_rest_clamp_witness :
    10 ≤ (("front-squat", (20 : ℚ)) : String × ℚ).2 ∧
      (("front-squat", (20 : ℚ)) : String × ℚ).2 ≤ 999 :=
  c9_rest_clamp_amended.1 [] ("front-squat") 20 (by simp) ("front-squat", 20)
    (by
      have h : Ledger.updateRest [] ("front-squat") 20 = [("front-squat", 20)] := by
        norm_num [Ledger.updateRest, Ledger.recordSet, jsRound, Int.floor_eq_iff]
      rw [h]
      exact List.mem_singleton.mpr rfl)

/-- C3 (amended): `parseScheme("3×6–10 @ RIR2")` yields set count 3, a
rep-range description containing 6 and 10, and an RIR annotation
containing 2; `parseScheme("AMRAP to RIR2")` yields an absent set count,
but its rep text is `2 reps`, not `AMRAP`: the single-rep pattern
`(\d+)\s*(?:reps?|$)` matches the digit of `RIR2` at the end of the
string before the `AMRAP` fallback is reached. -/
theorem c3_parse_prescription_amended :
    (Advisor.parseScheme ("3×6–10 @ RIR2")).sets = some 3 ∧
    Advisor.hasSeg ("6").data ((Advisor.parseScheme ("3×6–10 @ RIR2")).repText).data = true ∧
    Advisor.hasSeg ("10").data ((Advisor.parseScheme ("3×6–10 @ RIR2")).repText).data = true ∧
    (∃ t, (Advisor.parseScheme ("3×6–10 @ RIR2")).rirText = some t ∧
       Advisor.hasSeg ("2").data t.data = true) ∧
    (Advisor.parseScheme ("AMRAP to RIR2")).sets = none ∧
    (Advisor.parseScheme ("AMRAP to RIR2")).repText = "2 reps" :=
  ⟨by decide, by decide, by decide, ⟨"@ RIR 2", by decide, by decide⟩, by decide, by decide⟩

/-- Counterexample to C3 as stated: `parseScheme("AMRAP to RIR2")` does
not return the rep text `AMRAP` (its set count is indeed absent, but the
rep text is `2 reps`). -/
theorem c3_parse_prescription_counterexample :
    ¬ ((Advisor.parseScheme ("AMRAP to RIR2")).sets = none ∧
       (Advisor.parseScheme ("AMRAP to RIR2")).repText = "AMRAP") := by
  decide
